import Mathlib

/-!
Shallow embedding of the scheduler / process-management core of a small
bare-metal RISC-V kernel (`src/proc.c`), together with theorems settling
the frozen claims C1-C10 about it.

The only repository source file is `src/proc.c`; the headers `proc.h`,
`pagealloc.h`, `programs.h`, `kernel.h` and the collaborating translation
units (page allocator, programs table, timer) are not in the repository.
Definitions for those collaborators are modelled from the spec and say so
in their doc comments; everything else is translated line-by-line from
`proc.c`.

Modelling conventions:
- machine integers are `Nat` with explicit reductions: `w64` is the
  `uint64_t` (`regsize_t`) wrap-around, pids are `uint32_t` so the pid
  counter increments modulo `2^32`; the C literal `-1` returned from a
  `uint32_t` function is the value `UINT32_MAX`;
- pointers to process slots are slot indices `Fin 16`, the C null pointer
  is `Option.none`; a null-pointer dereference makes the modelled
  operation return `none` (undefined behaviour);
- global mutable state (`proc_table`, `trap_frame`, the allocator bitmap
  and RAM) is threaded explicitly through a `kernel_state`;
- spinlocks are `Bool` flags on a single hart: `acquire` sets the flag,
  `release` clears it, exactly where the C does;
- the hardware timer `time_get_now()` is an external collaborator: its
  current value is passed in as a `now : Nat` parameter.
-/

/-- Modelled from the spec: number of process-table slots, `MAX_PROCS` in
the missing header `proc.h`; the spec fixes it as a "Fixed array of
`MAX_PROCS` slots (small, e.g. 16)". -/
def MAX_PROCS : Nat := 16

/-- Modelled from the spec: page size in bytes, `PAGE_SIZE` = 4 KiB (spec
section 4.1). -/
def PAGE_SIZE : Nat := 4096

/-- Modelled from the spec: base address of the allocator's contiguous
region `[HEAP_BASE, HEAP_END)` (spec section 4.1); the concrete address is
immaterial to the claims. -/
def HEAP_BASE : Nat := 0x80100000

/-- Modelled from the spec: timer ticks per second, `ONE_SECOND` in the
missing `kernel.h`; `proc_sleep` converts milliseconds to ticks with
`ONE_SECOND/1000` (ticks per millisecond). The concrete rate is immaterial
to the claims. -/
def ONE_SECOND : Nat := 1000000

/-- The value of the C expression `(uint32_t)(-1)`, how `proc_fork` and
`proc_execv` (return type `uint32_t`) report failure. -/
def UINT32_MAX : Nat := 4294967295

/-- One beyond the largest `uint64_t` value. -/
def TWO64 : Nat := 18446744073709551616

/-- Wrap-around of `uint64_t` (`regsize_t`) arithmetic. -/
def w64 (x : Nat) : Nat := x % TWO64

/-- `uint64_t` subtraction `a - b` with wrap-around. -/
def wsub (a b : Nat) : Nat := (a + (TWO64 - b % TWO64)) % TWO64

/-- Modelled from the spec / RISC-V psABI: the register indices `REG_RA`,
`REG_SP`, `REG_FP`, `REG_A0`, `REG_A1` come from the missing `proc.h`;
standard numbering x1 = ra, x2 = sp, x8 = fp/s0, x10 = a0, x11 = a1. -/
def REG_RA : Fin 32 := ⟨1, by norm_num⟩

/-- Stack-pointer register index (x2). -/
def REG_SP : Fin 32 := ⟨2, by norm_num⟩

/-- Frame-pointer register index (x8 = s0). -/
def REG_FP : Fin 32 := ⟨8, by norm_num⟩

/-- First argument / return-value register index (x10). -/
def REG_A0 : Fin 32 := ⟨10, by norm_num⟩

/-- Second argument register index (x11). -/
def REG_A1 : Fin 32 := ⟨11, by norm_num⟩

/-- The four process lifecycle states of `proc.h` (spec section 3). -/
inductive ProcState where
  | available
  | ready
  | running
  | sleeping
deriving DecidableEq

/-- `trap_frame_t`: 32 general-purpose registers plus the saved `pc`
(spec section 3, "Trap frame"). -/
structure trap_frame_t where
  regs : Fin 32 → Nat
  pc : Nat

/-- `process_t`: one process-table slot. `parent` is the C back-pointer
`process_t*` as a slot index (`none` = NULL); `stack_page` is the page's
base address. -/
structure process_t where
  pid : Nat
  name : String
  state : ProcState
  parent : Option (Fin 16)
  context : trap_frame_t
  stack_page : Nat
  wakeup_time : Nat
  lock : Bool

/-- `proc_table_t`: the fixed array of slots plus the table metadata.
`curr_proc` is the C `int` (it is initialized to `-1`). -/
structure proc_table_t where
  procs : Fin 16 → process_t
  curr_proc : Int
  pid_counter : Nat
  num_procs : Nat
  is_idle : Bool
  lock : Bool

/-- Modelled from the spec: the page allocator's state, a "bitmap over a
contiguous region divided into `PAGE_SIZE` frames" (spec section 4.1);
`bits[i] = true` iff frame `i` is free. -/
structure pagealloc_t where
  bits : List Bool

/-- The whole mutable kernel state threaded through the operations: the
globals `proc_table` and `trap_frame` of `proc.c`, the allocator bitmap,
and RAM as a byte map. -/
structure kernel_state where
  ptable : proc_table_t
  tf : trap_frame_t
  alloc : pagealloc_t
  mem : Nat → Nat

/-- Modelled from the spec: one entry of the static programs table, a
"{name, entry_point} pair" (spec section 6). -/
structure user_program_t where
  name : String
  entry_point : Nat

/-- Modelled from the spec: `find_user_program` resolves a program "by
exact-match name" in the static table (spec section 6). -/
def find_user_program (progs : List user_program_t) (filename : String) :
    Option user_program_t :=
  progs.find? (fun p => p.name == filename)

/-- Index of the first free frame in the allocator bitmap. -/
def firstFreeIdx : List Bool → Option Nat
  | [] => none
  | b :: rest => if b then some 0 else (firstFreeIdx rest).map (· + 1)

/-- Modelled from the spec: `allocate_page()` returns the address of a
free frame, or null if none; first-fit over the bitmap (spec section 4.1). -/
def allocate_page (a : pagealloc_t) : Option Nat × pagealloc_t :=
  match firstFreeIdx a.bits with
  | none => (none, a)
  | some i => (some (HEAP_BASE + i * PAGE_SIZE), { bits := a.bits.set i false })

/-- Modelled from the spec: `release_page(p)` marks `p`'s frame free
(spec section 4.1). -/
def release_page (p : Nat) (a : pagealloc_t) : pagealloc_t :=
  { bits := a.bits.set ((p - HEAP_BASE) / PAGE_SIZE) true }

/-- Number of free pages, the `freeram` figure of `sysinfo`. -/
def freeram (a : pagealloc_t) : Nat := a.bits.count true

/-- Modelled from the spec: `copy_page(dst, src)` copies one page
"byte-for-byte" (spec sections 4.5 and 5; its code is in the missing
`pagealloc.c`). `mem` is RAM as a byte map. -/
def copy_page (mem : Nat → Nat) (dst src : Nat) : Nat → Nat :=
  fun a => if dst ≤ a ∧ a < dst + PAGE_SIZE then mem (src + (a - dst)) else mem a

/-- Replace slot `i` of the table by `f` of it, leaving the other slots
and the table metadata unchanged (a C write through `&procs[i]`). -/
def updProc (t : proc_table_t) (i : Fin 16) (f : process_t → process_t) :
    proc_table_t :=
  { t with procs := fun j => if j = i then f (t.procs j) else t.procs j }

/-- Interpret the C `int` `curr_proc` as a slot index, as the C does when
it evaluates `procs[curr_proc]` (only reached when `0 <= curr_proc < 16`). -/
def idxOf (n : Int) : Fin 16 := ⟨n.toNat % 16, Nat.mod_lt _ (by norm_num)⟩

/-- `should_wake_up` from proc.c lines 130-136: a sleeper is due iff
`wakeup_time <= now`. -/
def should_wake_up (now : Nat) (proc : process_t) : Bool :=
  if proc.wakeup_time ≤ now then true else false

/-- The order in which `find_ready_proc`'s do-while loop examines the
slots: `start+1, start+2, ..., start+16 (= start)`, wrapping at 16. -/
def scanOrder (start : Fin 16) : List (Fin 16) :=
  (List.range 16).map (fun k => ⟨(start.val + k + 1) % 16, Nat.mod_lt _ (by norm_num)⟩)

/-- The body of `find_ready_proc`'s do-while loop over the remaining scan
order; the second argument tracks the last examined index (the loop's
`curr_proc` variable). Breaks at a `READY` slot, or at a due `SLEEPING`
slot after promoting it to `READY` in place. -/
def frp_go (now : Nat) (t : proc_table_t) :
    List (Fin 16) → Fin 16 → Fin 16 × proc_table_t
  | [], last => (last, t)
  | i :: rest, _last =>
    if (t.procs i).state = ProcState.ready then (i, t)
    else if (t.procs i).state = ProcState.sleeping ∧ should_wake_up now (t.procs i) = true then
      (i, updProc t i (fun q => { q with state := ProcState.ready }))
    else frp_go now t rest i

/-- `find_ready_proc` from proc.c lines 105-128. It stores the loop's
final index into `proc_table.curr_proc`, and returns null exactly when the
last examined slot (after a full revolution that is the start slot) is
still `SLEEPING`. -/
def find_ready_proc (now : Nat) (t : proc_table_t) (start : Fin 16) :
    Option (Fin 16) × proc_table_t :=
  let r := frp_go now t (scanOrder start) start
  let t2 := { r.2 with curr_proc := (r.1.val : Int) }
  if (t2.procs r.1).state = ProcState.sleeping then (none, t2) else (some r.1, t2)

/-- `copy_context` from proc.c lines 259-263: copies the 32 registers and
nothing else; in particular the destination's `pc` is untouched. -/
def copy_context (dst src : trap_frame_t) : trap_frame_t :=
  { dst with regs := src.regs }

/-- `schedule_user_process` from proc.c lines 49-103. The `set_timer_after`,
`enable_interrupts` and `park_hart` calls of the idle path only touch the
hardware and are dropped; `set_user_mode` likewise. -/
def schedule_user_process (now : Nat) (s : kernel_state) : kernel_state :=
  let t0 := { s.ptable with lock := true }
  let cp := t0.curr_proc
  let start : Fin 16 := if cp < 0 then ⟨0, by norm_num⟩ else idxOf cp
  let last_proc : Option (Fin 16) :=
    if cp < 0 then none
    else if (t0.procs (idxOf cp)).state = ProcState.available ∨ t0.is_idle = true then none
    else some (idxOf cp)
  if t0.num_procs = 0 then
    { s with ptable := { t0 with lock := false } }
  else
    match find_ready_proc now t0 start with
    | (none, t1) => { s with ptable := { t1 with is_idle := true, lock := false } }
    | (some i, t1) =>
      let t2 := updProc t1 i (fun p => { p with lock := true, state := ProcState.running })
      match last_proc with
      | none =>
        let tf1 := copy_context s.tf (t2.procs i).context
        { s with
          ptable := { updProc t2 i (fun p => { p with lock := false }) with
                      is_idle := false, lock := false },
          tf := tf1 }
      | some lp =>
        if (t2.procs lp).pid ≠ (t2.procs i).pid then
          let t3 := updProc t2 lp (fun p =>
            { p with context := copy_context p.context s.tf, state := ProcState.ready })
          let tf1 := copy_context s.tf (t3.procs i).context
          { s with
            ptable := { updProc t3 i (fun p => { p with lock := false }) with
                        is_idle := false, lock := false },
            tf := tf1 }
        else
          { s with
            ptable := { updProc t2 i (fun p => { p with lock := false }) with
                        is_idle := false, lock := false } }

/-- `alloc_pid` from proc.c lines 221-227: return the counter, then
increment it; the counter is a `uint32_t`. Under the table lock
(acquired and released, hence the final `lock := false`). -/
def alloc_pid (t : proc_table_t) : Nat × proc_table_t :=
  (t.pid_counter, { t with pid_counter := (t.pid_counter + 1) % 4294967296, lock := false })

/-- `alloc_process` from proc.c lines 229-247: scan for an `AVAILABLE`
slot skipping the index `curr_proc`; on success the slot's lock is taken
and stays held (the C releases only the table lock), the slot becomes
`READY` and `num_procs` is incremented. -/
def alloc_process (t : proc_table_t) : Option (Fin 16) × proc_table_t :=
  match (List.finRange 16).find? (fun i =>
      decide (¬((i.val : Int) = t.curr_proc)) && decide ((t.procs i).state = ProcState.available)) with
  | none => (none, { t with lock := false })
  | some i =>
    (some i,
     { updProc t i (fun p => { p with lock := true, state := ProcState.ready }) with
       num_procs := t.num_procs + 1, lock := false })

/-- `current_proc` from proc.c lines 249-257: acquires the table lock and,
when `num_procs == 0`, returns null WITHOUT releasing it; otherwise
releases the lock and returns `&procs[curr_proc]`. -/
def current_proc (t : proc_table_t) : Option (Fin 16) × proc_table_t :=
  let t1 := { t with lock := true }
  if t1.num_procs = 0 then (none, t1)
  else (some (idxOf t1.curr_proc), { t1 with lock := false })

/-- The two context-saving lines of `proc_fork` (proc.c lines 153-155):
acquire the parent's lock, store the trap frame's `pc` into the parent's
context and then `copy_context` the trap frame's registers into it. -/
def saveParentCtx (t : proc_table_t) (pidx : Fin 16) (tf : trap_frame_t) :
    proc_table_t :=
  updProc t pidx (fun p =>
    { p with lock := true, context := copy_context { p.context with pc := tf.pc } tf })

/-- `proc_fork` from proc.c lines 138-181. Returns the child's pid, or
`UINT32_MAX` (the C `return -1` through `uint32_t`) on failure. -/
def proc_fork (s : kernel_state) : Nat × kernel_state :=
  match allocate_page s.alloc with
  | (none, _) => (UINT32_MAX, s)
  | (some sp, a1) =>
    match current_proc s.ptable with
    | (none, t1) => (UINT32_MAX, { s with ptable := t1, alloc := release_page sp a1 })
    | (some pidx, t1) =>
      let t2 := saveParentCtx t1 pidx s.tf
      match alloc_process t2 with
      | (none, t3) =>
        (UINT32_MAX,
         { s with
           ptable := updProc t3 pidx (fun p => { p with lock := false }),
           alloc := release_page sp a1 })
      | (some cidx, t3) =>
        let pidt := alloc_pid t3
        let cpid := pidt.1
        let t4 := pidt.2
        let t5 := updProc t4 cidx (fun c =>
          { c with
            pid := cpid, parent := some pidx,
            context := { c.context with pc := (t4.procs pidx).context.pc },
            stack_page := sp })
        let mem1 := copy_page s.mem sp ((t5.procs pidx).stack_page)
        let t6 := updProc t5 cidx (fun c =>
          { c with context := copy_context c.context (t5.procs pidx).context })
        let offsp := wsub ((t6.procs pidx).context.regs REG_SP) ((t6.procs pidx).stack_page)
        let t7 := updProc t6 cidx (fun c =>
          { c with context := { c.context with
              regs := Function.update c.context.regs REG_SP (w64 (sp + offsp)) } })
        let offfp := wsub ((t7.procs pidx).context.regs REG_FP) ((t7.procs pidx).stack_page)
        let t8 := updProc t7 cidx (fun c =>
          { c with context := { c.context with
              regs := Function.update c.context.regs REG_FP (w64 (sp + offfp)) } })
        let t9 := updProc t8 cidx (fun c =>
          { c with context := { c.context with
              regs := Function.update c.context.regs REG_A0 0 } })
        let t10 := updProc (updProc t9 pidx (fun p => { p with lock := false })) cidx
          (fun c => { c with lock := false })
        let tf1 := { s.tf with regs := Function.update s.tf.regs REG_A0 cpid }
        (cpid, { s with ptable := t10, tf := tf1, alloc := a1, mem := mem1 })

/-- `proc_execv` from proc.c lines 183-218. `filename` is `none` for the
C null pointer; `argv` is the raw pointer value placed into `a1`. Note
the source sets `a0 = 7` with a `TODO: set it to len(argv)`. -/
def proc_execv (progs : List user_program_t) (filename : Option String)
    (argv : Nat) (s : kernel_state) : Nat × kernel_state :=
  match filename with
  | none => (UINT32_MAX, s)
  | some fname =>
    match find_user_program progs fname with
    | none => (UINT32_MAX, s)
    | some program =>
      match allocate_page s.alloc with
      | (none, _) => (UINT32_MAX, s)
      | (some sp, a1) =>
        match current_proc s.ptable with
        | (none, t1) => (UINT32_MAX, { s with ptable := t1, alloc := a1 })
        | (some pidx, t1) =>
          let t2 := updProc t1 pidx (fun p =>
            let pc1 := w64 program.entry_point
            { p with
              lock := true,
              name := program.name,
              stack_page := sp,
              context := { pc := pc1,
                           regs := Function.update (Function.update (Function.update
                             (Function.update (Function.update p.context.regs
                               REG_RA (w64 pc1)) REG_SP (w64 (sp + PAGE_SIZE)))
                               REG_FP (w64 (sp + PAGE_SIZE))) REG_A0 7) REG_A1 (w64 argv) } })
          let a2 := release_page ((t1.procs pidx).stack_page) a1
          let t3 := updProc t2 pidx (fun p => { p with lock := false })
          let tf1 := copy_context s.tf (t2.procs pidx).context
          (0, { s with ptable := t3, tf := tf1, alloc := a2 })

/-- The body of `proc_exit` (proc.c lines 265-284) up to but excluding its
final `schedule_user_process()` call. Returns `none` when the code would
dereference a null `proc->parent` (undefined behaviour). -/
def proc_exit_body (s : kernel_state) : Option kernel_state :=
  match current_proc s.ptable with
  | (none, t1) => some { s with ptable := t1 }
  | (some pidx, t1) =>
    let t2 := updProc t1 pidx (fun p => { p with lock := true })
    let a1 := release_page ((t2.procs pidx).stack_page) s.alloc
    let t3 := updProc t2 pidx (fun p => { p with state := ProcState.available })
    match (t3.procs pidx).parent with
    | none => none
    | some par =>
      let t4 := updProc t3 par (fun p => { p with state := ProcState.ready, lock := false })
      let t5 := updProc t4 pidx (fun p => { p with lock := false })
      let t6 := { t5 with num_procs := t5.num_procs - 1, lock := false }
      some { s with ptable := t6, alloc := a1 }

/-- `proc_exit` from proc.c lines 265-284: the body above followed by
`schedule_user_process()`. -/
def proc_exit (now : Nat) (s : kernel_state) : Option kernel_state :=
  (proc_exit_body s).map (schedule_user_process now)

/-- `wait_or_sleep` from proc.c lines 286-300: mark the caller `SLEEPING`
with the given absolute wakeup time, save the trap frame's registers into
its context (`copy_context` leaves the context's `pc` alone), and invoke
the scheduler. -/
def wait_or_sleep (now : Nat) (wakeup_time : Nat) (s : kernel_state) :
    Int × kernel_state :=
  match current_proc s.ptable with
  | (none, t1) => (-1, { s with ptable := t1 })
  | (some pidx, t1) =>
    let t2 := updProc t1 pidx (fun p =>
      { p with
        state := ProcState.sleeping, wakeup_time := wakeup_time,
        context := copy_context p.context s.tf, lock := false })
    (0, schedule_user_process now { s with ptable := t2 })

/-- `proc_wait` from proc.c lines 302-304: sleep with `wakeup_time = 0`. -/
def proc_wait (now : Nat) (s : kernel_state) : Int × kernel_state :=
  wait_or_sleep now 0 s

/-- `proc_sleep` from proc.c lines 306-310: sleep until
`now + (ONE_SECOND/1000)*milliseconds` (all `uint64_t` arithmetic). -/
def proc_sleep (now : Nat) (milliseconds : Nat) (s : kernel_state) :
    Int × kernel_state :=
  wait_or_sleep now (w64 (now + w64 ((ONE_SECOND / 1000) * milliseconds))) s

/-- `init_process_table` from proc.c lines 9-22, minus the trailing
`init_test_processes()` call (delegated to the missing programs
collaborator). The C initializes only `curr_proc`, `pid_counter`,
`is_idle` and every slot's `state`; the remaining fields sit in zeroed
BSS, modelled as zeros. -/
def init_process_table : proc_table_t :=
  { procs := fun _ =>
      { pid := 0, name := "", state := ProcState.available, parent := none,
        context := { regs := fun _ => 0, pc := 0 }, stack_page := 0,
        wakeup_time := 0, lock := false },
    curr_proc := -1, pid_counter := 0, num_procs := 0, is_idle := true, lock := false }

/-! ## Basic facts about the embedding -/

theorem updProc_procs_same (t : proc_table_t) (i : Fin 16) (f : process_t → process_t) :
    (updProc t i f).procs i = f (t.procs i) := by
  simp [updProc]

theorem updProc_procs_ne (t : proc_table_t) (i j : Fin 16) (f : process_t → process_t)
    (h : j ≠ i) : (updProc t i f).procs j = t.procs j := by
  simp [updProc, h]

theorem firstFreeIdx_getElem? :
    ∀ (l : List Bool) (i : Nat), firstFreeIdx l = some i → l[i]? = some true
  | [], i, h => by simp [firstFreeIdx] at h
  | b :: rest, i, h => by
    by_cases hb : b
    · subst hb
      simp [firstFreeIdx] at h
      subst h
      simp
    · simp [firstFreeIdx, hb] at h
      obtain ⟨j, hj, rfl⟩ := h
      simpa using firstFreeIdx_getElem? rest j hj

theorem set_self_of_getElem? :
    ∀ (l : List Bool) (i : Nat), l[i]? = some true → l.set i true = l
  | [], _, h => by simp at h
  | b :: rest, 0, h => by
    simp at h
    simp [h]
  | b :: rest, i + 1, h => by
    simp at h
    simp [List.set, set_self_of_getElem? rest i h]

theorem release_allocate (a : pagealloc_t) (p : Nat) (a1 : pagealloc_t)
    (h : allocate_page a = (some p, a1)) : release_page p a1 = a := by
  unfold allocate_page at h
  rcases hf : firstFreeIdx a.bits with _ | i
  · rw [hf] at h; simp at h
  · rw [hf] at h
    simp only [Prod.mk.injEq, Option.some.injEq] at h
    obtain ⟨rfl, rfl⟩ := h
    unfold release_page
    have hidx : (HEAP_BASE + i * PAGE_SIZE - HEAP_BASE) / PAGE_SIZE = i := by
      rw [Nat.add_sub_cancel_left, Nat.mul_div_cancel i (by norm_num [PAGE_SIZE])]
    simp only [hidx]
    rw [List.set_set, set_self_of_getElem? a.bits i (firstFreeIdx_getElem? a.bits i hf)]

/-! ## C1: what `find_ready_proc` selects -/

/-- The predicate of spec property P6 (claim C1): a slot is `READY`, or
`SLEEPING` with `wakeup_time <= now`. -/
def matchesB (now : Nat) (p : process_t) : Bool :=
  decide (p.state = ProcState.ready) ||
    (decide (p.state = ProcState.sleeping) && should_wake_up now p)

/-- Does any slot of the table satisfy the P6 predicate? -/
def existsReadyProc (now : Nat) (t : proc_table_t) : Bool :=
  (List.finRange 16).any (fun i => matchesB now (t.procs i))

theorem frp_go_no_match (now : Nat) (t : proc_table_t) :
    ∀ (l : List (Fin 16)) (l0 : Fin 16),
      (∀ i ∈ l, matchesB now (t.procs i) = false) →
      frp_go now t l l0 = (l.getLastD l0, t)
  | [], _, _ => rfl
  | i :: rest, l0, h => by
    have hi := h i (by simp)
    have h1 : ¬(t.procs i).state = ProcState.ready := by
      intro hc
      simp [matchesB, hc] at hi
    have h2 : ¬((t.procs i).state = ProcState.sleeping ∧
        should_wake_up now (t.procs i) = true) := by
      rintro ⟨hs, hw⟩
      simp [matchesB, hs, hw] at hi
    simp only [frp_go, if_neg h1, if_neg h2]
    rw [List.getLastD_cons]
    exact frp_go_no_match now t rest i (fun j hj => h j (by simp [hj]))

theorem frp_go_match (now : Nat) (t : proc_table_t) :
    ∀ (l : List (Fin 16)) (l0 : Fin 16),
      (∃ i ∈ l, matchesB now (t.procs i) = true) →
      ((frp_go now t l l0).2.procs (frp_go now t l l0).1).state = ProcState.ready
  | [], _, h => by simp at h
  | i :: rest, l0, h => by
    by_cases h1 : (t.procs i).state = ProcState.ready
    · simp only [frp_go, if_pos h1]
      exact h1
    · by_cases h2 : (t.procs i).state = ProcState.sleeping ∧
          should_wake_up now (t.procs i) = true
      · simp only [frp_go, if_neg h1, if_pos h2]
        simp [updProc_procs_same]
      · simp only [frp_go, if_neg h1, if_neg h2]
        apply frp_go_match now t rest i
        obtain ⟨j, hj, hm⟩ := h
        rcases List.mem_cons.mp hj with rfl | hjr
        · exfalso
          simp [matchesB] at hm
          rcases hm with hR | ⟨hS, hW⟩
          · exact h1 hR
          · exact h2 ⟨hS, hW⟩
        · exact ⟨j, hjr, hm⟩

theorem scanOrder_getLastD : ∀ (start l0 : Fin 16), (scanOrder start).getLastD l0 = start := by
  decide

theorem mem_scanOrder : ∀ (start i : Fin 16), i ∈ scanOrder start := by
  decide

/-- Claim C1, amended. `find_ready_proc` returns null iff no slot
satisfies the P6 predicate AND the slot at the start index is `SLEEPING`:
when the full revolution finds no `READY` or due `SLEEPING` slot, the
function returns the start slot itself whenever that slot is not
`SLEEPING`, even if it is `AVAILABLE` or `RUNNING` (that is how the sole
current process gets re-elected). -/
theorem find_ready_proc_none_iff (now : Nat) (t : proc_table_t) (start : Fin 16) :
    (find_ready_proc now t start).1 = none ↔
      (existsReadyProc now t = false ∧ (t.procs start).state = ProcState.sleeping) := by
  have key : existsReadyProc now t = false →
      frp_go now t (scanOrder start) start = (start, t) := by
    intro hf
    have hall : ∀ i ∈ scanOrder start, matchesB now (t.procs i) = false := by
      intro i _
      have := List.any_eq_false.mp hf
      simpa using this i (List.mem_finRange i)
    rw [frp_go_no_match now t _ start hall, scanOrder_getLastD]
  unfold find_ready_proc
  dsimp only
  split
  next hsleep =>
    refine iff_of_true rfl ?_
    cases hB : existsReadyProc now t with
    | false =>
      rw [key hB] at hsleep
      exact ⟨rfl, hsleep⟩
    | true =>
      exfalso
      have hmem : ∃ i ∈ scanOrder start, matchesB now (t.procs i) = true := by
        obtain ⟨i, _, hm⟩ := List.any_eq_true.mp hB
        exact ⟨i, mem_scanOrder start i, hm⟩
      have hready := frp_go_match now t (scanOrder start) start hmem
      rw [hready] at hsleep
      exact ProcState.noConfusion hsleep
  next hns =>
    refine iff_of_false (Option.some_ne_none _) ?_
    rintro ⟨hf, hstart⟩
    rw [key hf] at hns
    exact hns hstart

/-- A base process slot: every field zeroed, state `AVAILABLE`. -/
def procZero : process_t :=
  { pid := 0, name := "", state := ProcState.available, parent := none,
    context := { regs := fun _ => 0, pc := 0 }, stack_page := 0,
    wakeup_time := 0, lock := false }

/-- A table in which slot 0 is `RUNNING` (the current process) and every
other slot is `AVAILABLE`: no slot satisfies the P6 predicate. -/
def tableC1 : proc_table_t :=
  { procs := fun i => if i = (0 : Fin 16) then
      { procZero with state := ProcState.running, pid := 1 } else procZero,
    curr_proc := 0, pid_counter := 2, num_procs := 1, is_idle := false, lock := false }

/-- Counterexample to claim C1 as stated: in `tableC1` no slot is `READY`
nor `SLEEPING` with a due wakeup, yet `find_ready_proc` returns slot 0,
which is `RUNNING`: after a fruitless full revolution the function hands
back the start slot whenever it is not `SLEEPING`. -/
theorem find_ready_proc_nonnull_without_ready :
    existsReadyProc 0 tableC1 = false ∧
    (find_ready_proc 0 tableC1 (0 : Fin 16)).1 = some (0 : Fin 16) ∧
    (tableC1.procs (0 : Fin 16)).state = ProcState.running := by
  decide

/-! ## C2, C3: sleeping and waking -/

theorem frp_go_keeps_sleeping (now : Nat) (t : proc_table_t) (j : Fin 16)
    (hs : (t.procs j).state = ProcState.sleeping)
    (hw : should_wake_up now (t.procs j) = false) :
    ∀ (l : List (Fin 16)) (l0 : Fin 16),
      ((frp_go now t l l0).2.procs j).state = ProcState.sleeping
  | [], _ => hs
  | i :: rest, l0 => by
    by_cases h1 : (t.procs i).state = ProcState.ready
    · simp only [frp_go, if_pos h1]
      exact hs
    · by_cases h2 : (t.procs i).state = ProcState.sleeping ∧
          should_wake_up now (t.procs i) = true
      · simp only [frp_go, if_neg h1, if_pos h2]
        have hij : j ≠ i := by
          intro hji
          rw [← hji] at h2
          rw [h2.2] at hw
          exact Bool.noConfusion hw
        rw [updProc_procs_ne t i j _ hij]
        exact hs
      · simp only [frp_go, if_neg h1, if_neg h2]
        exact frp_go_keeps_sleeping now t j hs hw rest i

/-- Claim C3, amended. The scheduler's deadline check itself is sound: a
slot that is `SLEEPING` with `wakeup_time > now` is neither promoted to
`READY` nor selected by `find_ready_proc`. (The original claim fails
because two OTHER paths wake a timed sleeper early: `proc_exit`
unconditionally readies the parent, and `schedule_user_process` marks the
outgoing process `READY` when it switches away right after the process
went to sleep - see the counterexample.) -/
theorem find_ready_proc_respects_deadline (now : Nat) (t : proc_table_t)
    (start j : Fin 16)
    (hs : (t.procs j).state = ProcState.sleeping)
    (hlt : now < (t.procs j).wakeup_time) :
    ((find_ready_proc now t start).2.procs j).state = ProcState.sleeping ∧
    (find_ready_proc now t start).1 ≠ some j := by
  have hw : should_wake_up now (t.procs j) = false := by
    have hn : ¬(t.procs j).wakeup_time ≤ now := by omega
    simp [should_wake_up, hn]
  have hkeep := frp_go_keeps_sleeping now t j hs hw (scanOrder start) start
  unfold find_ready_proc
  dsimp only
  split
  next hsl =>
    exact ⟨hkeep, by simp⟩
  next hns =>
    refine ⟨hkeep, ?_⟩
    intro hc
    injection hc with hc1
    rw [hc1] at hns
    exact absurd hkeep hns

/-- A table whose slot 0 is in a timed sleep with a future deadline. -/
def tableC3w : proc_table_t :=
  { procs := fun i => if i = (0 : Fin 16) then
      { procZero with state := ProcState.sleeping, wakeup_time := 100, pid := 1 }
      else procZero,
    curr_proc := 1, pid_counter := 2, num_procs := 1, is_idle := false, lock := false }

theorem find_ready_proc_respects_deadline_witness :
    ((find_ready_proc 5 tableC3w (1 : Fin 16)).2.procs (0 : Fin 16)).state
        = ProcState.sleeping ∧
    (find_ready_proc 5 tableC3w (1 : Fin 16)).1 ≠ some (0 : Fin 16) :=
  find_ready_proc_respects_deadline 5 tableC3w (1 : Fin 16) (0 : Fin 16)
    (by decide) (by decide)

/-- A two-process state: slot 0 (pid 1) is `RUNNING` and current, slot 1
(pid 2) is `READY`. -/
def ksC3 : kernel_state :=
  { ptable :=
      { procs := fun i =>
          if i = (0 : Fin 16) then { procZero with state := ProcState.running, pid := 1 }
          else if i = (1 : Fin 16) then { procZero with state := ProcState.ready, pid := 2 }
          else procZero,
        curr_proc := 0, pid_counter := 3, num_procs := 2, is_idle := false, lock := false },
    tf := { regs := fun _ => 0, pc := 0 },
    alloc := { bits := [] },
    mem := fun _ => 0 }

/-- Counterexample to claim C3 as stated. In `ksC3`, pid 1 calls
`sleep(1000)` at time 100, so its absolute deadline is
`100 + 1000*(ONE_SECOND/1000) = 1000100`. The scheduler switches to pid 2
and - because the context-save path marks the outgoing process `READY`
regardless of the sleep it just began - the very next timer tick at time
101 re-elects pid 1 to `RUNNING`, long before its deadline. -/
theorem sleep_reelected_before_deadline :
    ((schedule_user_process 101 ((proc_sleep 100 1000 ksC3).2)).ptable.procs
        (0 : Fin 16)).state = ProcState.running ∧
    101 < ((schedule_user_process 101 ((proc_sleep 100 1000 ksC3).2)).ptable.procs
        (0 : Fin 16)).wakeup_time := by
  decide

/-- A table whose slot 0 went to sleep via `wait()` (so `wakeup_time = 0`)
while slot 1 (pid 2) is the current `RUNNING` process. -/
def tableC2 : proc_table_t :=
  { procs := fun i =>
      if i = (0 : Fin 16) then
        { procZero with state := ProcState.sleeping, wakeup_time := 0, pid := 1 }
      else if i = (1 : Fin 16) then { procZero with state := ProcState.running, pid := 2 }
      else procZero,
    curr_proc := 1, pid_counter := 3, num_procs := 2, is_idle := false, lock := false }

/-- Claim C2 names a code bug: `should_wake_up` has no special case for
`wakeup_time == 0`, and since `0 <= now` always holds, a process that
called `wait()` (`SLEEPING` with `wakeup_time = 0`) is promoted to
`READY` by the very next `find_ready_proc` scan although no child has
called `exit` - `wakeup_time == 0` behaves as "deadline already passed",
not "sleep forever". -/
theorem wait_zero_wakes_without_exit :
    (tableC2.procs (0 : Fin 16)).wakeup_time = 0 ∧
    should_wake_up 7 (tableC2.procs (0 : Fin 16)) = true ∧
    (find_ready_proc 7 tableC2 (1 : Fin 16)).1 = some (0 : Fin 16) ∧
    ((find_ready_proc 7 tableC2 (1 : Fin 16)).2.procs (0 : Fin 16)).state
        = ProcState.ready := by
  decide

/-! ## C9: `current_proc` and the table lock -/

/-- Claim C9: `current_proc` returns null exactly when `num_procs == 0`;
on that null path it returns while still holding the table lock, and only
on the non-null path is the lock released before returning, the result
being (the index of) `&procs[curr_proc]`. -/
theorem current_proc_lock_spec (t : proc_table_t) :
    ((current_proc t).1 = none ↔ t.num_procs = 0) ∧
    (t.num_procs = 0 → (current_proc t).2.lock = true) ∧
    (t.num_procs ≠ 0 →
      (current_proc t).1 = some (idxOf t.curr_proc) ∧
      (current_proc t).2.lock = false) := by
  by_cases h : t.num_procs = 0 <;> simp [current_proc, h]

/-! ## C10: `proc_exit` and the parent pointer -/

theorem exit_avail_parent_field (t1 : proc_table_t) (pidx : Fin 16) :
    ((updProc (updProc t1 pidx (fun p => { p with lock := true })) pidx
        (fun p => { p with state := ProcState.available })).procs pidx).parent
      = (t1.procs pidx).parent := by
  simp [updProc]

/-- Claim C10: whenever the exiting slot's parent pointer is non-null,
`proc_exit` writes `READY` into the parent slot regardless of the
parent's prior state (the table here is arbitrary, so the parent may be
`AVAILABLE`, `RUNNING` or in a timed sleep); when the parent pointer is
null the C dereferences NULL - modelled as `none` - so `parent != NULL`
is the precondition that makes `proc_exit` safe. -/
theorem proc_exit_wakes_parent (now : Nat) (s : kernel_state) (pidx : Fin 16)
    (t1 : proc_table_t) (hcp : current_proc s.ptable = (some pidx, t1)) :
    (∀ par : Fin 16, (t1.procs pidx).parent = some par →
      ∃ s', proc_exit_body s = some s' ∧
        (s'.ptable.procs par).state = ProcState.ready ∧
        proc_exit now s = some (schedule_user_process now s')) ∧
    ((t1.procs pidx).parent = none → proc_exit now s = none) := by
  constructor
  · intro par hpar
    have hbody : ∃ s', proc_exit_body s = some s' ∧
        (s'.ptable.procs par).state = ProcState.ready := by
      unfold proc_exit_body
      rw [hcp]
      dsimp only
      rw [exit_avail_parent_field, hpar]
      dsimp only
      refine ⟨_, rfl, ?_⟩
      by_cases hpp : par = pidx <;> simp [updProc, hpp]
    obtain ⟨s', hs', hready⟩ := hbody
    refine ⟨s', hs', hready, ?_⟩
    unfold proc_exit
    rw [hs']
    rfl
  · intro hpar
    unfold proc_exit proc_exit_body
    rw [hcp]
    dsimp only
    rw [exit_avail_parent_field, hpar]
    rfl

/-- A state for exercising `proc_exit`: slot 0 (pid 1, `RUNNING`,
current) has parent slot 1, and the parent is in a timed sleep - showing
the `READY` write happens regardless of the parent's prior state. -/
def ksC10 : kernel_state :=
  { ptable :=
      { procs := fun i =>
          if i = (0 : Fin 16) then
            { procZero with
              state := ProcState.running, pid := 1,
              parent := some (1 : Fin 16), stack_page := HEAP_BASE }
          else if i = (1 : Fin 16) then
            { procZero with state := ProcState.sleeping, wakeup_time := 999, pid := 2 }
          else procZero,
        curr_proc := 0, pid_counter := 3, num_procs := 2, is_idle := false, lock := false },
    tf := { regs := fun _ => 0, pc := 0 },
    alloc := { bits := [false] },
    mem := fun _ => 0 }

theorem proc_exit_wakes_parent_witness :
    ∃ s', proc_exit_body ksC10 = some s' ∧
      (s'.ptable.procs (1 : Fin 16)).state = ProcState.ready ∧
      proc_exit 0 ksC10 = some (schedule_user_process 0 s') :=
  (proc_exit_wakes_parent 0 ksC10 (0 : Fin 16) ((current_proc ksC10.ptable).2) rfl).1
    (1 : Fin 16) (by decide)

/-! ## C7: pid allocation -/

/-- The table after `k` successive `alloc_pid` calls starting from `t`. -/
def alloc_pid_iter (t : proc_table_t) : Nat → proc_table_t
  | 0 => t
  | k + 1 => (alloc_pid (alloc_pid_iter t k)).2

/-- The pid returned by the `k`-th (0-based) `alloc_pid` call of a boot,
i.e. starting from `init_process_table`. -/
def nth_pid (k : Nat) : Nat :=
  (alloc_pid (alloc_pid_iter init_process_table k)).1

theorem alloc_pid_iter_counter :
    ∀ k : Nat, (alloc_pid_iter init_process_table k).pid_counter = k % 4294967296
  | 0 => rfl
  | k + 1 => by
    show ((alloc_pid_iter init_process_table k).pid_counter + 1) % 4294967296
        = (k + 1) % 4294967296
    rw [alloc_pid_iter_counter k]
    exact Nat.mod_add_mod k 4294967296 1

/-- Claim C7, amended. Over one boot the pids issued by successive
`alloc_pid` calls are `0, 1, 2, ...`: strictly monotonically increasing,
with no value recycled, for as long as fewer than `2^32` pids have been
issued (the counter is a `uint32_t`). Pid 0 is NOT reserved for "none":
it is the very first pid issued, so the first process created after boot
is a live process with pid 0 (see the counterexample). -/
theorem alloc_pid_strictly_monotone :
    nth_pid 0 = 0 ∧
    ∀ i j : Nat, i < j → j < 4294967296 → nth_pid i < nth_pid j := by
  constructor
  · rfl
  · intro i j hij hj
    have hi : nth_pid i = i := by
      show (alloc_pid_iter init_process_table i).pid_counter = i
      rw [alloc_pid_iter_counter i]
      exact Nat.mod_eq_of_lt (by omega)
    have hjv : nth_pid j = j := by
      show (alloc_pid_iter init_process_table j).pid_counter = j
      rw [alloc_pid_iter_counter j]
      exact Nat.mod_eq_of_lt hj
    omega

/-- A one-process state whose pid counter is still 0: no pid has been
issued yet in this boot. Slot 0 is the current `RUNNING` process and owns
the only allocated page; page 1 is free. -/
def ksC7 : kernel_state :=
  { ptable :=
      { procs := fun i =>
          if i = (0 : Fin 16) then
            { procZero with
              state := ProcState.running, pid := 42,
              stack_page := HEAP_BASE }
          else procZero,
        curr_proc := 0, pid_counter := 0, num_procs := 1, is_idle := false, lock := false },
    tf := { regs := fun _ => 0, pc := 0 },
    alloc := { bits := [false, true] },
    mem := fun _ => 0 }

/-- Counterexample to the "pid 0 is reserved for none and never denotes a
live process" part of claim C7: the first `alloc_pid` of a boot returns
0, and `proc_fork` stores that pid into the newly created child, a live
(`READY`) process. (It is also `fork`'s return value, making the parent's
return indistinguishable from the child's 0.) -/
theorem pid_zero_denotes_live_process :
    (proc_fork ksC7).1 = 0 ∧
    ((proc_fork ksC7).2.ptable.procs (1 : Fin 16)).pid = 0 ∧
    ((proc_fork ksC7).2.ptable.procs (1 : Fin 16)).state = ProcState.ready := by
  decide

/-! ## C8: `copy_context` never touches `pc` -/

/-- Claim C8: `copy_context` copies exactly the 32 general-purpose
registers and leaves the destination's `pc` unchanged; consequently the
context switches of `schedule_user_process` and the final trap-frame
update of `proc_execv` never write a `pc` value into the trap frame (on
any path of either function). -/
theorem copy_context_pc_frame :
    (∀ dst src : trap_frame_t, copy_context dst src = { regs := src.regs, pc := dst.pc }) ∧
    (∀ (now : Nat) (s : kernel_state), (schedule_user_process now s).tf.pc = s.tf.pc) ∧
    (∀ (progs : List user_program_t) (filename : Option String) (argv : Nat)
       (s : kernel_state), (proc_execv progs filename argv s).2.tf.pc = s.tf.pc) := by
  refine ⟨fun dst src => rfl, ?_, ?_⟩
  · intro now s
    unfold schedule_user_process
    dsimp only
    repeat' split <;> try rfl
  · intro progs filename argv s
    unfold proc_execv
    dsimp only
    repeat' split <;> try rfl

/-! ## C6: failed `fork` is atomic -/

/-- Claim C6: a failed `proc_fork` - out of memory (`allocate_page`
returns null), no current process, or a full table (`alloc_process`
returns null) - returns `-1` (`UINT32_MAX` through the `uint32_t` return
type), leaves the allocator exactly as it was (any page allocated during
the attempt is released before returning, so `freeram` is unchanged),
leaves every slot's state unchanged and `num_procs` unchanged: no process
is created. The `pid_counter` hypothesis only rules out a successful fork
whose child pid happens to collide with the failure value. -/
theorem proc_fork_fail_atomic (s : kernel_state)
    (hpc : s.ptable.pid_counter ≠ UINT32_MAX)
    (hfail : (proc_fork s).1 = UINT32_MAX) :
    (proc_fork s).2.alloc = s.alloc ∧
    freeram (proc_fork s).2.alloc = freeram s.alloc ∧
    (proc_fork s).2.ptable.num_procs = s.ptable.num_procs ∧
    ∀ i : Fin 16, ((proc_fork s).2.ptable.procs i).state = (s.ptable.procs i).state := by
  unfold proc_fork at hfail ⊢
  rcases hffi : firstFreeIdx s.alloc.bits with _ | pi
  · have ha : allocate_page s.alloc = (none, s.alloc) := by
      unfold allocate_page
      rw [hffi]
    rw [ha] at hfail ⊢
    exact ⟨rfl, rfl, rfl, fun i => rfl⟩
  · have ha : allocate_page s.alloc =
        (some (HEAP_BASE + pi * PAGE_SIZE), { bits := s.alloc.bits.set pi false }) := by
      unfold allocate_page
      rw [hffi]
    have hrel : release_page (HEAP_BASE + pi * PAGE_SIZE)
        { bits := s.alloc.bits.set pi false } = s.alloc :=
      release_allocate s.alloc _ _ ha
    rw [ha] at hfail ⊢
    dsimp only at hfail ⊢
    by_cases hnum : s.ptable.num_procs = 0
    · have hcp : current_proc s.ptable = (none, { s.ptable with lock := true }) := by
        unfold current_proc
        rw [if_pos hnum]
      rw [hcp] at hfail ⊢
      exact ⟨hrel, by rw [hrel], rfl, fun i => rfl⟩
    · obtain ⟨t1, hcp, hprocs, hnum1, hpid1⟩ :
          ∃ t1, current_proc s.ptable = (some (idxOf s.ptable.curr_proc), t1) ∧
            t1.procs = s.ptable.procs ∧ t1.num_procs = s.ptable.num_procs ∧
            t1.pid_counter = s.ptable.pid_counter := by
        refine ⟨{ s.ptable with lock := false }, ?_, rfl, rfl, rfl⟩
        unfold current_proc
        rw [if_neg hnum]
      rw [hcp] at hfail ⊢
      dsimp only at hfail ⊢
      rcases hap : alloc_process (saveParentCtx t1 (idxOf s.ptable.curr_proc) s.tf)
        with ⟨ocidx, t3⟩
      cases ocidx with
      | none =>
        dsimp only at hfail ⊢
        unfold alloc_process at hap
        split at hap
        · -- no AVAILABLE slot: t3 is the scan input with the lock released
          simp only [Prod.mk.injEq] at hap
          obtain ⟨-, rfl⟩ := hap
          refine ⟨hrel, by rw [hrel], by simp [updProc, saveParentCtx, hnum1], fun i => ?_⟩
          by_cases hip : i = idxOf s.ptable.curr_proc <;>
            simp [updProc, saveParentCtx, copy_context, hip, hprocs]
        · simp at hap
      | some cidx =>
        rw [hap] at hfail
        dsimp only at hfail
        unfold alloc_process at hap
        split at hap
        · simp at hap
        · -- a slot was found: the fork succeeds and returns the fresh pid
          exfalso
          simp only [Prod.mk.injEq, Option.some.injEq] at hap
          obtain ⟨-, rfl⟩ := hap
          have hcounter : t1.pid_counter = UINT32_MAX := hfail
          rw [hpid1] at hcounter
          exact hpc hcounter

/-- A state whose process table is completely full (every slot `READY`,
slot 0 current) with one free page: `fork` fails with `TABLE_FULL` after
having allocated a page, which it must release again. -/
def ksC6 : kernel_state :=
  { ptable :=
      { procs := fun _ => { procZero with state := ProcState.ready, pid := 5 },
        curr_proc := 0, pid_counter := 17, num_procs := 16, is_idle := false,
        lock := false },
    tf := { regs := fun _ => 0, pc := 0 },
    alloc := { bits := [true] },
    mem := fun _ => 0 }

theorem proc_fork_fail_atomic_witness :
    (proc_fork ksC6).2.alloc = ksC6.alloc ∧
    freeram (proc_fork ksC6).2.alloc = freeram ksC6.alloc ∧
    (proc_fork ksC6).2.ptable.num_procs = ksC6.ptable.num_procs ∧
    ∀ i : Fin 16, ((proc_fork ksC6).2.ptable.procs i).state = (ksC6.ptable.procs i).state :=
  proc_fork_fail_atomic ksC6 (by decide) (by decide)

/-! ## C4: `proc_execv` resets the context -/

theorem w64_w64 (x : Nat) : w64 (w64 x) = w64 x :=
  Nat.mod_mod_of_dvd x (dvd_refl TWO64)

/-- Claim C4 names a code bug in one clause. On a successful
`execv(filename, argv)` the caller's saved context is reset as claimed:
`pc` is the resolved program's entry point, `ra = pc`, `sp` and `fp`
both point at the top of the freshly allocated stack page, `a1 = argv`,
the old stack page is released back to the allocator, `stack_page` is the
new page, and the trap frame's registers are rewritten from the new
context. But `a0` is NOT the argc computed from the null-terminated argv
vector: the source hard-codes `a0 = 7` (`TODO: set it to len(argv)`), as
the last-but-one conjunct shows. -/
theorem proc_execv_resets_context (progs : List user_program_t) (fname : String)
    (argv : Nat) (s : kernel_state) (program : user_program_t) (sp : Nat)
    (a1 : pagealloc_t) (pidx : Fin 16) (t1 : proc_table_t)
    (hfind : find_user_program progs fname = some program)
    (halloc : allocate_page s.alloc = (some sp, a1))
    (hcp : current_proc s.ptable = (some pidx, t1))
    (hprocs : t1.procs = s.ptable.procs) :
    (proc_execv progs (some fname) argv s).1 = 0 ∧
    ((proc_execv progs (some fname) argv s).2.ptable.procs pidx).context.pc
        = w64 program.entry_point ∧
    ((proc_execv progs (some fname) argv s).2.ptable.procs pidx).context.regs REG_RA
        = w64 program.entry_point ∧
    ((proc_execv progs (some fname) argv s).2.ptable.procs pidx).context.regs REG_SP
        = w64 (sp + PAGE_SIZE) ∧
    ((proc_execv progs (some fname) argv s).2.ptable.procs pidx).context.regs REG_FP
        = w64 (sp + PAGE_SIZE) ∧
    ((proc_execv progs (some fname) argv s).2.ptable.procs pidx).context.regs REG_A0
        = 7 ∧
    ((proc_execv progs (some fname) argv s).2.ptable.procs pidx).context.regs REG_A1
        = w64 argv ∧
    ((proc_execv progs (some fname) argv s).2.ptable.procs pidx).stack_page = sp ∧
    (proc_execv progs (some fname) argv s).2.alloc
        = release_page ((s.ptable.procs pidx).stack_page) a1 ∧
    (proc_execv progs (some fname) argv s).2.tf.regs
        = ((proc_execv progs (some fname) argv s).2.ptable.procs pidx).context.regs := by
  unfold proc_execv
  dsimp only
  rw [hfind, halloc, hcp]
  dsimp only
  refine ⟨rfl, ?_, ?_, ?_, ?_, ?_, ?_, ?_, ?_, ?_⟩
  · simp [updProc]
  · simp [updProc, Function.update_noteq (show REG_RA ≠ REG_A1 by decide),
      Function.update_noteq (show REG_RA ≠ REG_A0 by decide),
      Function.update_noteq (show REG_RA ≠ REG_FP by decide),
      Function.update_noteq (show REG_RA ≠ REG_SP by decide), w64_w64]
  · simp [updProc, Function.update_noteq (show REG_SP ≠ REG_A1 by decide),
      Function.update_noteq (show REG_SP ≠ REG_A0 by decide),
      Function.update_noteq (show REG_SP ≠ REG_FP by decide)]
  · simp [updProc, Function.update_noteq (show REG_FP ≠ REG_A1 by decide),
      Function.update_noteq (show REG_FP ≠ REG_A0 by decide)]
  · simp [updProc, Function.update_noteq (show REG_A0 ≠ REG_A1 by decide)]
  · simp [updProc]
  · simp [updProc]
  · simp [updProc, hprocs]
  · simp [updProc, copy_context]

/-! ## C5: `fork` duplicates the register file -/

theorem alloc_process_some (t : proc_table_t) (i : Fin 16) (t' : proc_table_t)
    (h : alloc_process t = (some i, t')) :
    t'.pid_counter = t.pid_counter ∧
    ∀ j : Fin 16, j ≠ i → t'.procs j = t.procs j := by
  unfold alloc_process at h
  split at h
  · simp at h
  · simp only [Prod.mk.injEq, Option.some.injEq] at h
    obtain ⟨rfl, rfl⟩ := h
    exact ⟨rfl, fun j hj => by simp [updProc, hj]⟩

theorem wsub_of_le (a b : Nat) (hba : b ≤ a) (ha : a < TWO64) : wsub a b = a - b := by
  unfold wsub
  have hb : b < TWO64 := lt_of_le_of_lt hba ha
  rw [Nat.mod_eq_of_lt hb]
  have h1 : a + (TWO64 - b) = (a - b) + TWO64 := by omega
  rw [h1, Nat.add_mod_right]
  exact Nat.mod_eq_of_lt (by omega)

/-- Claim C5 / spec property P4. After a successful `fork` (the
hypotheses say the page allocation, `current_proc` and the slot
allocation all succeeded, and that the parent's `sp`/`fp` lie in its
stack page without `uint64` wrap-around):
the parent's saved register file equals the trap frame at the point of
call; the child's saved register file agrees with the parent's in every
register except `a0`, `sp` and `fp`; the child's `a0` is 0 while the
parent's `a0` in the trap frame is the child's pid (also `fork`'s return
value), the other trap-frame registers being untouched; the child's
`sp`/`fp` hold the parent's byte offsets relocated into the child's
freshly allocated page; and that page is a byte-for-byte copy of the
parent's page. -/
theorem proc_fork_child_registers (s : kernel_state) (sp : Nat) (a1 : pagealloc_t)
    (pidx cidx : Fin 16) (t1 t3 : proc_table_t)
    (halloc : allocate_page s.alloc = (some sp, a1))
    (hcp : current_proc s.ptable = (some pidx, t1))
    (hprocs : t1.procs = s.ptable.procs)
    (hap : alloc_process (saveParentCtx t1 pidx s.tf) = (some cidx, t3))
    (hne : cidx ≠ pidx)
    (hsple : (s.ptable.procs pidx).stack_page ≤ s.tf.regs REG_SP)
    (hsplt : s.tf.regs REG_SP < TWO64)
    (hspsum : sp + (s.tf.regs REG_SP - (s.ptable.procs pidx).stack_page) < TWO64)
    (hfple : (s.ptable.procs pidx).stack_page ≤ s.tf.regs REG_FP)
    (hfplt : s.tf.regs REG_FP < TWO64)
    (hfpsum : sp + (s.tf.regs REG_FP - (s.ptable.procs pidx).stack_page) < TWO64) :
    (proc_fork s).1 = t3.pid_counter ∧
    ((proc_fork s).2.ptable.procs cidx).pid = t3.pid_counter ∧
    (∀ i : Fin 32, ((proc_fork s).2.ptable.procs pidx).context.regs i = s.tf.regs i) ∧
    (∀ i : Fin 32, i ≠ REG_A0 → i ≠ REG_SP → i ≠ REG_FP →
      ((proc_fork s).2.ptable.procs cidx).context.regs i
        = ((proc_fork s).2.ptable.procs pidx).context.regs i) ∧
    ((proc_fork s).2.ptable.procs cidx).context.regs REG_A0 = 0 ∧
    (proc_fork s).2.tf.regs REG_A0 = ((proc_fork s).2.ptable.procs cidx).pid ∧
    (∀ i : Fin 32, i ≠ REG_A0 → (proc_fork s).2.tf.regs i = s.tf.regs i) ∧
    ((proc_fork s).2.ptable.procs cidx).context.regs REG_SP
      = sp + (s.tf.regs REG_SP - (s.ptable.procs pidx).stack_page) ∧
    ((proc_fork s).2.ptable.procs cidx).context.regs REG_FP
      = sp + (s.tf.regs REG_FP - (s.ptable.procs pidx).stack_page) ∧
    ((proc_fork s).2.ptable.procs cidx).stack_page = sp ∧
    (∀ off : Nat, off < PAGE_SIZE →
      (proc_fork s).2.mem (sp + off) = s.mem ((s.ptable.procs pidx).stack_page + off)) := by
  have hne' : pidx ≠ cidx := Ne.symm hne
  have hpar3 : t3.procs pidx
      = { t1.procs pidx with
          lock := true,
          context := { regs := s.tf.regs, pc := s.tf.pc } } := by
    rw [(alloc_process_some _ cidx t3 hap).2 pidx hne']
    simp [saveParentCtx, updProc, copy_context]
  unfold proc_fork
  rw [halloc]
  dsimp only
  rw [hcp]
  dsimp only
  rw [hap]
  dsimp only
  refine ⟨rfl, ?_, ?_, ?_, ?_, ?_, ?_, ?_, ?_, ?_, ?_⟩
  · simp [updProc, alloc_pid, hne, hne']
  · intro i
    simp [updProc, alloc_pid, hne, hne', hpar3]
  · intro i hi0 hi1 hi2
    simp [updProc, alloc_pid, hne, hne', hpar3, copy_context,
      Function.update_noteq hi0, Function.update_noteq hi1, Function.update_noteq hi2]
  · simp [updProc, alloc_pid, hne, hne', copy_context]
  · simp [updProc, alloc_pid, hne, hne']
  · intro i hi0
    simp [Function.update_noteq hi0]
  · simp [updProc, alloc_pid, hne, hne', hpar3, copy_context, hprocs,
      Function.update_noteq (show REG_SP ≠ REG_A0 by decide),
      Function.update_noteq (show REG_SP ≠ REG_FP by decide),
      wsub_of_le _ _ hsple hsplt, w64, Nat.mod_eq_of_lt hspsum]
  · simp [updProc, alloc_pid, hne, hne', hpar3, copy_context, hprocs,
      Function.update_noteq (show REG_FP ≠ REG_A0 by decide),
      wsub_of_le _ _ hfple hfplt, w64, Nat.mod_eq_of_lt hfpsum]
  · simp [updProc, alloc_pid, hne, hne']
  · intro off hoff
    have hc : sp ≤ sp + off ∧ sp + off < sp + PAGE_SIZE := by omega
    simp [updProc, alloc_pid, hne, hne', hpar3, hprocs, copy_page, hc,
      Nat.add_sub_cancel_left]

/-- Modelled from the spec: a one-entry static programs table containing
"shell". -/
def progsC4 : List user_program_t := [{ name := "shell", entry_point := 4096 }]

/-- A one-process state for exercising `execv`: slot 0 is current and
owns page 1; page 0 is free. -/
def ksC4 : kernel_state :=
  { ptable :=
      { procs := fun i =>
          if i = (0 : Fin 16) then
            { procZero with
              state := ProcState.running, pid := 1,
              stack_page := HEAP_BASE + PAGE_SIZE }
          else procZero,
        curr_proc := 0, pid_counter := 2, num_procs := 1, is_idle := false, lock := false },
    tf := { regs := fun _ => 0, pc := 0 },
    alloc := { bits := [true, false] },
    mem := fun _ => 0 }

theorem proc_execv_resets_context_witness :
    (proc_execv progsC4 (some "shell") 77 ksC4).1 = 0 ∧
    ((proc_execv progsC4 (some "shell") 77 ksC4).2.ptable.procs (0 : Fin 16)).context.regs
        REG_A0 = 7 ∧
    ((proc_execv progsC4 (some "shell") 77 ksC4).2.ptable.procs (0 : Fin 16)).context.pc
        = w64 4096 := by
  have h := proc_execv_resets_context progsC4 "shell" 77 ksC4
    { name := "shell", entry_point := 4096 } HEAP_BASE { bits := [false, false] }
    (0 : Fin 16) ((current_proc ksC4.ptable).2) rfl rfl rfl rfl
  exact ⟨h.1, h.2.2.2.2.2.1, h.2.1⟩

/-- A one-process state for exercising `fork`: slot 0 (pid 1, current,
`RUNNING`) owns page 1, page 0 is free, and the trap frame's `sp`/`fp`
point into the parent's page; RAM holds a non-constant pattern so the
page copy is observable. -/
def ksC5 : kernel_state :=
  { ptable :=
      { procs := fun i =>
          if i = (0 : Fin 16) then
            { procZero with
              state := ProcState.running, pid := 1,
              stack_page := HEAP_BASE + PAGE_SIZE }
          else procZero,
        curr_proc := 0, pid_counter := 9, num_procs := 1, is_idle := false, lock := false },
    tf :=
      { regs := fun i =>
          if i = REG_SP then HEAP_BASE + PAGE_SIZE + 16
          else if i = REG_FP then HEAP_BASE + PAGE_SIZE + 32
          else if i = REG_A0 then 42 else 7,
        pc := 123 },
    alloc := { bits := [true, false] },
    mem := fun a => a % 251 }

theorem proc_fork_child_registers_witness :
    ((proc_fork ksC5).2.ptable.procs (1 : Fin 16)).context.regs REG_A0 = 0 ∧
    (proc_fork ksC5).2.tf.regs REG_A0 = ((proc_fork ksC5).2.ptable.procs (1 : Fin 16)).pid ∧
    ((proc_fork ksC5).2.ptable.procs (1 : Fin 16)).context.regs REG_SP
      = HEAP_BASE + (ksC5.tf.regs REG_SP - (ksC5.ptable.procs (0 : Fin 16)).stack_page) ∧
    (proc_fork ksC5).2.mem (HEAP_BASE + 5)
      = ksC5.mem ((ksC5.ptable.procs (0 : Fin 16)).stack_page + 5) := by
  have h := proc_fork_child_registers ksC5 HEAP_BASE { bits := [false, false] }
    (0 : Fin 16) (1 : Fin 16) ((current_proc ksC5.ptable).2)
    ((alloc_process (saveParentCtx ((current_proc ksC5.ptable).2) (0 : Fin 16) ksC5.tf)).2)
    rfl rfl rfl rfl (by decide) (by decide) (by decide) (by decide)
    (by decide) (by decide) (by decide)
  obtain ⟨-, -, -, -, h5, h6, -, h8, -, -, h11⟩ := h
  exact ⟨h5, h6, h8, h11 5 (by norm_num [PAGE_SIZE])⟩
